import Mathlib

/-!
Verification of the analysis engine of the infrastructure-monitoring
pipeline (`nodes.py` / `models.py`): insight aggregation, threshold-based
anomaly detection with per-metric deduplication, and service-status
conflict resolution.

The embedding mirrors `analysis_node` in `nodes.py`.  Numeric gauges are
modelled as rationals, Python `int` fields as `Int`, Python `round` as
round-half-to-even on rationals.  The per-service status map is the fixed
three-field record of `models.ServiceStatus`, with the status strings
restricted to the three recognized states (the analysis engine's input
contract; ill-formed status strings are rejected upstream by ingestion).
The anomaly map is an insertion-ordered association list keyed by metric
name, mirroring a Python `dict`.
-/

set_option maxHeartbeats 1000000

namespace Monitoring

/-- One of the three recognized service states. -/
inductive Status where
  | online
  | degraded
  | offline
  deriving DecidableEq, Repr

/-- Mirror of `models.ServiceStatus`: health status of the three fixed services. -/
structure ServiceStatus where
  database : Status
  api_gateway : Status
  cache : Status
  deriving DecidableEq, Repr

/-- Mirror of `models.InputData`: a single monitoring snapshot. -/
structure InputData where
  timestamp : String
  cpu_usage : ℚ
  memory_usage : ℚ
  latency_ms : ℚ
  disk_usage : ℚ
  network_in_kbps : ℚ
  network_out_kbps : ℚ
  io_wait : ℚ
  thread_count : ℤ
  active_connections : ℤ
  error_rate : ℚ
  uptime_seconds : ℤ
  temperature_celsius : ℚ
  power_consumption_watts : ℚ
  service_status : ServiceStatus
  deriving DecidableEq, Repr

/-- Mirror of `models.Insights`: aggregated metrics. -/
structure Insights where
  average_latency_ms : ℚ
  max_cpu_usage : ℚ
  max_memory_usage : ℚ
  error_rate : ℚ
  uptime_seconds : ℤ
  deriving DecidableEq, Repr

/-- Mirror of `models.Anomaly`: one detected threshold breach. -/
structure Anomaly where
  metric : String
  value : ℚ
  threshold : ℚ
  severity : String
  description : String
  deriving DecidableEq, Repr

/-- Mirror of `models.ServiceStatusSummary`: resolved service health, three sorted lists. -/
structure ServiceStatusSummary where
  online : List String
  degraded : List String
  offline : List String
  deriving DecidableEq, Repr

/-- The bundle produced by the analysis node (insights, anomalies, summary). -/
structure AnalysisResult where
  insights : Insights
  anomalies : List Anomaly
  service_status_summary : ServiceStatusSummary
  deriving DecidableEq, Repr

/-- The single core-level failure kind: no data to aggregate.  In the code
the failure surfaces as the exception raised by `statistics.mean` on an
empty list; the spec names this failure mode `EmptyInputError`. -/
inductive AnalysisError where
  | emptyInput
  deriving DecidableEq, Repr

/-- The high cutoffs of the `THRESHOLDS` table in `nodes.py`. -/
def THRESHOLDS_high (metric : String) : ℚ :=
  if metric = "cpu_usage" then 85
  else if metric = "memory_usage" then 80
  else if metric = "latency_ms" then 250
  else if metric = "error_rate" then mkRat 5 100
  else if metric = "temperature_celsius" then 75
  else if metric = "io_wait" then 10
  else 0

/-- The medium cutoffs of the `THRESHOLDS` table in `nodes.py`. -/
def THRESHOLDS_medium (metric : String) : ℚ :=
  if metric = "cpu_usage" then 75
  else if metric = "memory_usage" then 70
  else if metric = "latency_ms" then 180
  else if metric = "error_rate" then mkRat 2 100
  else if metric = "temperature_celsius" then 65
  else if metric = "io_wait" then 7
  else 0

/-! ### The anomaly map

`anomaly_map` in `analysis_node` is a Python dict from metric name to
`Anomaly`.  We model it as an insertion-ordered association list whose key
is the anomaly's own `metric` field; `setSlot` is `anomaly_map[m] = a`
(overwrite in place keeps the position, a fresh key is appended, matching
dict insertion-order semantics) and `lookupSlot` is `anomaly_map.get(m)`. -/

/-- Assignment `anomaly_map[a.metric] = a`: overwrite in place, else append. -/
def setSlot (am : List Anomaly) (a : Anomaly) : List Anomaly :=
  match am with
  | [] => [a]
  | b :: rest => if b.metric = a.metric then a :: rest else b :: setSlot rest a

/-- Dict lookup `anomaly_map.get(name)`. -/
def lookupSlot (am : List Anomaly) (name : String) : Option Anomaly :=
  am.find? (fun b => b.metric = name)

/-- One single-threshold detection rule: metric name, gauge accessor,
breach cutoff, emitted severity and description text. -/
structure MetricRule where
  name : String
  value : InputData → ℚ
  threshold : ℚ
  severity : String
  describe : InputData → String

/-- The anomaly record a rule builds from a breaching snapshot. -/
def mkAnomaly (r : MetricRule) (e : InputData) : Anomaly :=
  { metric := r.name
    value := r.value e
    threshold := r.threshold
    severity := r.severity
    description := r.describe e }

/-- The shared shape of the five single-threshold blocks of
`analysis_node`: fire when the gauge exceeds the rule's cutoff; create the
record on first breach, afterwards replace it only when the new value is
strictly greater than the stored one. -/
def stepHighOnly (r : MetricRule) (am : List Anomaly) (e : InputData) : List Anomaly :=
  if r.value e > r.threshold then
    match lookupSlot am r.name with
    | none => setSlot am (mkAnomaly r e)
    | some a => if r.value e > a.value then setSlot am (mkAnomaly r e) else am
  else am

/-- Rule of the `memory_usage` block of `analysis_node`. -/
def memoryRule : MetricRule :=
  { name := "memory_usage"
    value := fun e => e.memory_usage
    threshold := THRESHOLDS_high "memory_usage"
    severity := "high"
    describe := fun e => "Memory usage critical at " ++ toString e.memory_usage ++ "%" }

/-- Rule of the `latency_ms` block of `analysis_node`. -/
def latencyRule : MetricRule :=
  { name := "latency_ms"
    value := fun e => e.latency_ms
    threshold := THRESHOLDS_high "latency_ms"
    severity := "high"
    describe := fun e => "Latency spike to " ++ toString e.latency_ms ++ "ms" }

/-- Rule of the `error_rate` block of `analysis_node`. -/
def errorRateRule : MetricRule :=
  { name := "error_rate"
    value := fun e => e.error_rate
    threshold := THRESHOLDS_high "error_rate"
    severity := "high"
    describe := fun e => "Error rate critical at " ++ toString (e.error_rate * 100) ++ "%" }

/-- Rule of the `temperature_celsius` block of `analysis_node`. -/
def temperatureRule : MetricRule :=
  { name := "temperature_celsius"
    value := fun e => e.temperature_celsius
    threshold := THRESHOLDS_high "temperature_celsius"
    severity := "high"
    describe := fun e => "Server temperature at " ++ toString e.temperature_celsius ++ "C" }

/-- Rule of the `io_wait` block of `analysis_node`: fires above the `"high"`
cutoff yet labels the anomaly severity `"medium"`. -/
def ioWaitRule : MetricRule :=
  { name := "io_wait"
    value := fun e => e.io_wait
    threshold := THRESHOLDS_high "io_wait"
    severity := "medium"
    describe := fun e => "IO wait time elevated at " ++ toString e.io_wait ++ "%" }

/-- The high-severity cpu anomaly record of the cpu block. -/
def cpuHighAnom (e : InputData) : Anomaly :=
  { metric := "cpu_usage"
    value := e.cpu_usage
    threshold := THRESHOLDS_high "cpu_usage"
    severity := "high"
    description := "CPU usage reached " ++ toString e.cpu_usage ++ "% at " ++ e.timestamp }

/-- The medium-severity cpu anomaly record of the cpu block. -/
def cpuMedAnom (e : InputData) : Anomaly :=
  { metric := "cpu_usage"
    value := e.cpu_usage
    threshold := THRESHOLDS_medium "cpu_usage"
    severity := "medium"
    description := "CPU usage elevated at " ++ toString e.cpu_usage ++ "%" }

/-- Step of the `cpu_usage` block of `analysis_node`: two-tier rule.  Above the
high cutoff the record is created or replaced on a strictly greater value;
in the medium band the record is created only when none exists yet. -/
def stepCpu (am : List Anomaly) (e : InputData) : List Anomaly :=
  if e.cpu_usage > THRESHOLDS_high "cpu_usage" then
    match lookupSlot am "cpu_usage" with
    | none => setSlot am (cpuHighAnom e)
    | some a => if e.cpu_usage > a.value then setSlot am (cpuHighAnom e) else am
  else if e.cpu_usage > THRESHOLDS_medium "cpu_usage" then
    match lookupSlot am "cpu_usage" with
    | none => setSlot am (cpuMedAnom e)
    | some _ => am
  else am

/-- One iteration of the `for entry in data` loop of `analysis_node`:
the six metric blocks in source order. -/
def processEntry (am : List Anomaly) (e : InputData) : List Anomaly :=
  stepHighOnly ioWaitRule
    (stepHighOnly temperatureRule
      (stepHighOnly errorRateRule
        (stepHighOnly latencyRule
          (stepHighOnly memoryRule (stepCpu am e) e) e) e) e) e

/-- The anomaly-detection pass of `analysis_node`:
`list(anomaly_map.values())` after the scan. -/
def detectAnomalies (data : List InputData) : List Anomaly :=
  data.foldl processEntry []

/-! ### Service status aggregation

`status_tracker` is a dict of three Python sets; `service_status.model_dump()`
yields the three `(service name, status)` pairs in field order. -/

/-- The pairs `entry.service_status.model_dump().items()`, in field order. -/
def serviceDump (s : ServiceStatus) : List (String × Status) :=
  [("database", s.database), ("api_gateway", s.api_gateway), ("cache", s.cache)]

/-- The `status_tracker` dict: one set of service names per state. -/
structure StatusTracker where
  online : Finset String
  degraded : Finset String
  offline : Finset String

/-- Set insertion `status_tracker[status].add(service)`. -/
def trackerAdd (t : StatusTracker) (service : String) (st : Status) : StatusTracker :=
  match st with
  | .online => { t with online := insert service t.online }
  | .degraded => { t with degraded := insert service t.degraded }
  | .offline => { t with offline := insert service t.offline }

/-- The accumulation loop over all snapshots and their dumped status pairs. -/
def accumulateTracker (data : List InputData) : StatusTracker :=
  data.foldl
    (fun t e => (serviceDump e.service_status).foldl (fun t p => trackerAdd t p.1 p.2) t)
    ⟨∅, ∅, ∅⟩

/-- The two duplicate-removal passes of `analysis_node`: services ever
offline are discarded from `degraded` and `online`; the remaining degraded
services are then discarded from `online`.  (The guarding non-emptiness
tests in the source only skip no-op passes.) -/
def resolveTracker (t : StatusTracker) : StatusTracker :=
  let degraded1 := t.degraded \ t.offline
  let online1 := t.online \ t.offline
  { online := online1 \ degraded1, degraded := degraded1, offline := t.offline }

/-- The service-status part of `analysis_node`: accumulate, dedupe,
return each set as a lexicographically sorted list. -/
def resolveServiceStatus (data : List InputData) : ServiceStatusSummary :=
  let t := resolveTracker (accumulateTracker data)
  { online := t.online.sort (· ≤ ·)
    degraded := t.degraded.sort (· ≤ ·)
    offline := t.offline.sort (· ≤ ·) }

/-! ### Insights -/

/-- Python's `round` applied to an exact rational: round to the nearest
integer, ties to the even one. -/
def roundHalfEven (x : ℚ) : ℤ :=
  if x - (⌊x⌋ : ℚ) < 1 / 2 then ⌊x⌋
  else if x - (⌊x⌋ : ℚ) = 1 / 2 then (if ⌊x⌋ % 2 = 0 then ⌊x⌋ else ⌊x⌋ + 1)
  else ⌊x⌋ + 1

/-- Model of `round(x, n)`: round to `n` decimal digits. -/
def pyRound (x : ℚ) (n : ℕ) : ℚ :=
  (roundHalfEven (x * 10 ^ n) : ℚ) / 10 ^ n

/-- Model of `statistics.mean`: undefined (raises) on an empty list. -/
def listMean (xs : List ℚ) : Option ℚ :=
  if xs.isEmpty then none else some (xs.sum / xs.length)

/-- Python `max` over a list: undefined (raises) on an empty list. -/
def listMax (xs : List ℚ) : Option ℚ :=
  xs.max?

/-- The insights part of `analysis_node`.  Each aggregate is undefined on
an empty sequence (`statistics.mean` and `max` raise, `data[-1]` is out of
range), hence the `Option`. -/
def computeInsights (data : List InputData) : Option Insights := do
  let meanLat ← listMean (data.map (fun d => d.latency_ms))
  let maxCpu ← listMax (data.map (fun d => d.cpu_usage))
  let maxMem ← listMax (data.map (fun d => d.memory_usage))
  let meanErr ← listMean (data.map (fun d => d.error_rate))
  let lastE ← data.getLast?
  pure
    { average_latency_ms := pyRound meanLat 2
      max_cpu_usage := pyRound maxCpu 2
      max_memory_usage := pyRound maxMem 2
      error_rate := pyRound meanErr 4
      uptime_seconds := lastE.uptime_seconds }

/-- The function `analysis_node` restricted to its core: insights, anomaly detection and
service-status resolution over the parsed snapshot sequence.  On an empty
sequence the insight computation fails and the failure propagates as the
spec's `EmptyInputError`; the detector and the resolver are total. -/
def analysis_node (data : List InputData) : Except AnalysisError AnalysisResult :=
  match computeInsights data with
  | none => .error .emptyInput
  | some ins =>
      .ok
        { insights := ins
          anomalies := detectAnomalies data
          service_status_summary := resolveServiceStatus data }

/-! ### Predicates used to state the claims and the scan invariants -/

/-- The six metric names evaluated by the detector, in source order. -/
def metricNames : List String :=
  ["cpu_usage", "memory_usage", "latency_ms", "error_rate", "temperature_celsius", "io_wait"]

/-- Whether snapshot `e` breaches metric `name`'s detection threshold:
above the medium cutoff for `cpu_usage`, above the high cutoff for the
other five metrics. -/
def breachB (name : String) (e : InputData) : Bool :=
  if name = "cpu_usage" then decide (e.cpu_usage > THRESHOLDS_medium "cpu_usage")
  else if name = "memory_usage" then decide (e.memory_usage > THRESHOLDS_high "memory_usage")
  else if name = "latency_ms" then decide (e.latency_ms > THRESHOLDS_high "latency_ms")
  else if name = "error_rate" then decide (e.error_rate > THRESHOLDS_high "error_rate")
  else if name = "temperature_celsius" then
    decide (e.temperature_celsius > THRESHOLDS_high "temperature_celsius")
  else if name = "io_wait" then decide (e.io_wait > THRESHOLDS_high "io_wait")
  else false

/-- The gauge of snapshot `e` that metric `name` evaluates. -/
def metricGauge (name : String) (e : InputData) : ℚ :=
  if name = "cpu_usage" then e.cpu_usage
  else if name = "memory_usage" then e.memory_usage
  else if name = "latency_ms" then e.latency_ms
  else if name = "error_rate" then e.error_rate
  else if name = "temperature_celsius" then e.temperature_celsius
  else if name = "io_wait" then e.io_wait
  else 0

/-- Formal statement of the claim that the anomaly list has at most one
entry per metric and each entry's value is the maximum gauge value among
the snapshots breaching that metric's threshold. -/
def ValueIsMaxBreach (data : List InputData) : Prop :=
  ((detectAnomalies data).map (fun a => a.metric)).Nodup ∧
  ∀ a ∈ detectAnomalies data,
    (∃ e ∈ data, breachB a.metric e = true ∧ metricGauge a.metric e = a.value) ∧
    ∀ e ∈ data, breachB a.metric e = true → metricGauge a.metric e ≤ a.value

/-- Formal statement of the claim that `average_latency_ms` is the mean of
the latencies rounded to 2 decimals and lies within the closed interval
from the minimum to the maximum input latency. -/
def MeanWithinMinMax (data : List InputData) : Prop :=
  ∀ ins lo hi, computeInsights data = some ins →
    (data.map (fun d => d.latency_ms)).min? = some lo →
    (data.map (fun d => d.latency_ms)).max? = some hi →
    ins.average_latency_ms =
        pyRound ((data.map (fun d => d.latency_ms)).sum /
          ((data.map (fun d => d.latency_ms)).length : ℚ)) 2 ∧
      lo ≤ ins.average_latency_ms ∧ ins.average_latency_ms ≤ hi

/-- Service `s` was reported with status `st` by some snapshot of `data`. -/
def observedWith (data : List InputData) (s : String) (st : Status) : Prop :=
  ∃ e ∈ data, (s, st) ∈ serviceDump e.service_status

/-- Projection of the tracker onto one state's set. -/
def trackerSet (t : StatusTracker) : Status → Finset String
  | .online => t.online
  | .degraded => t.degraded
  | .offline => t.offline

/-- What the slot of a single-threshold rule `r` may hold after scanning
the snapshots `pre`: empty exactly as long as no snapshot breached, and
otherwise the rule's record for a breaching snapshot whose gauge value is
maximal among the breaching ones. -/
def SlotSpec (r : MetricRule) (pre : List InputData) : Option Anomaly → Prop
  | none => ∀ e ∈ pre, ¬ r.value e > r.threshold
  | some a =>
      (∃ e ∈ pre, r.value e > r.threshold ∧ a = mkAnomaly r e) ∧
      ∀ e ∈ pre, r.value e > r.threshold → r.value e ≤ a.value

/-- Invariant of the scan for a single-threshold rule. -/
def RuleInv (r : MetricRule) (pre : List InputData) (am : List Anomaly) : Prop :=
  SlotSpec r pre (lookupSlot am r.name)

/-- What the `cpu_usage` slot may hold after scanning `pre`: empty exactly
as long as no snapshot crossed the medium cutoff; a high-severity record
for a maximal high-breaching snapshot once some snapshot crossed the high
cutoff; and otherwise the medium-severity record of the first snapshot
that crossed the medium cutoff. -/
def CpuSpec (pre : List InputData) : Option Anomaly → Prop
  | none => ∀ e ∈ pre, ¬ e.cpu_usage > THRESHOLDS_medium "cpu_usage"
  | some a =>
      (a.severity = "high" ∧
        (∃ e ∈ pre, e.cpu_usage > THRESHOLDS_high "cpu_usage" ∧ a = cpuHighAnom e) ∧
        ∀ e ∈ pre, e.cpu_usage > THRESHOLDS_high "cpu_usage" → e.cpu_usage ≤ a.value) ∨
      (a.severity = "medium" ∧
        (∀ e ∈ pre, ¬ e.cpu_usage > THRESHOLDS_high "cpu_usage") ∧
        ∃ e₀, pre.find? (fun e => decide (e.cpu_usage > THRESHOLDS_medium "cpu_usage")) = some e₀ ∧
          a = cpuMedAnom e₀)

/-- Invariant of the scan for the two-tier cpu rule. -/
def CpuInv (pre : List InputData) (am : List Anomaly) : Prop :=
  CpuSpec pre (lookupSlot am "cpu_usage")

/-! ### Concrete snapshots used in witnesses and counterexamples -/

/-- A quiet snapshot: every gauge at 0, all services online. -/
def snapBase : InputData :=
  { timestamp := "t0"
    cpu_usage := 0, memory_usage := 0, latency_ms := 0, disk_usage := 0
    network_in_kbps := 0, network_out_kbps := 0, io_wait := 0
    thread_count := 0, active_connections := 0, error_rate := 0
    uptime_seconds := 0, temperature_celsius := 0, power_consumption_watts := 0
    service_status := { database := .online, api_gateway := .online, cache := .online } }

/-- The six-breach snapshot of the spec's testable-properties section. -/
def snapC8 : InputData :=
  { snapBase with cpu_usage := 90, memory_usage := 85, latency_ms := 300,
                  io_wait := 12, error_rate := mkRat 8 100, temperature_celsius := 80 }

/-- A snapshot whose cpu gauge crosses only the medium cutoff. -/
def snapCpu78 : InputData :=
  { snapBase with timestamp := "t1", cpu_usage := 78 }

/-- A later, larger medium-band cpu snapshot. -/
def snapCpu80 : InputData :=
  { snapBase with timestamp := "t2", cpu_usage := 80 }

/-- A snapshot whose cpu gauge crosses the high cutoff. -/
def snapCpu90 : InputData :=
  { snapBase with timestamp := "t3", cpu_usage := 90 }

/-- A snapshot with a tiny positive latency (0.004 ms). -/
def snapTinyLat : InputData :=
  { snapBase with latency_ms := mkRat 1 250 }

/-- Uptime snapshots for the last-element insight. -/
def snapUp1 : InputData := { snapBase with uptime_seconds := 10000 }

/-- A middle snapshot with the largest uptime of its sequence. -/
def snapUp2 : InputData := { snapBase with uptime_seconds := 99999 }

/-- A final snapshot whose uptime is neither the maximum nor the sum. -/
def snapUp3 : InputData := { snapBase with uptime_seconds := 11800 }

/-- Snapshot A of the spec's service-status example. -/
def snapSvcA : InputData :=
  { snapBase with service_status :=
      { database := .online, api_gateway := .degraded, cache := .online } }

/-- Snapshot B of the spec's service-status example. -/
def snapSvcB : InputData :=
  { snapBase with service_status :=
      { database := .offline, api_gateway := .online, cache := .degraded } }

/-- A snapshot breaching only the io_wait cutoff. -/
def snapIo12 : InputData := { snapBase with io_wait := 12 }

/-- The insight record computed for `[snapTinyLat]`. -/
def insTiny : Insights :=
  { average_latency_ms := 0, max_cpu_usage := 0, max_memory_usage := 0,
    error_rate := 0, uptime_seconds := 0 }

/-- The insight record computed for `[snapUp1, snapUp2, snapUp3]`. -/
def insUp : Insights :=
  { average_latency_ms := 0, max_cpu_usage := 0, max_memory_usage := 0,
    error_rate := 0, uptime_seconds := 11800 }

/-- The insight record computed for `[snapC8]`. -/
def insC8 : Insights :=
  { average_latency_ms := 300, max_cpu_usage := 90, max_memory_usage := 85,
    error_rate := mkRat 8 100, uptime_seconds := 0 }

/-! ## Lemmas about the anomaly map -/

theorem lookupSlot_nil (n : String) : lookupSlot [] n = none := rfl

theorem mkAnomaly_metric (r : MetricRule) (e : InputData) : (mkAnomaly r e).metric = r.name := rfl

theorem lookupSlot_setSlot_self (am : List Anomaly) (a : Anomaly) :
    lookupSlot (setSlot am a) a.metric = some a := by
  induction am with
  | nil => simp [setSlot, lookupSlot, List.find?]
  | cons b rest ih =>
      by_cases h : b.metric = a.metric
      · simp [setSlot, lookupSlot, List.find?, h]
      · simpa [setSlot, lookupSlot, List.find?, h] using ih

theorem lookupSlot_setSlot_ne (am : List Anomaly) (a : Anomaly) (n : String)
    (h : n ≠ a.metric) : lookupSlot (setSlot am a) n = lookupSlot am n := by
  induction am with
  | nil => simp [setSlot, lookupSlot, List.find?, Ne.symm h]
  | cons b rest ih =>
      by_cases hb : b.metric = a.metric
      · have d1 : (decide (a.metric = n)) = false := by simp [Ne.symm h]
        have d2 : (decide (b.metric = n)) = false := by simp [hb, Ne.symm h]
        simp [setSlot, if_pos hb, lookupSlot, List.find?, d1, d2]
      · by_cases hbn : b.metric = n
        · have d : (decide (b.metric = n)) = true := by simp [hbn]
          simp [setSlot, if_neg hb, lookupSlot, List.find?, d]
        · have d : (decide (b.metric = n)) = false := by simp [hbn]
          simpa [setSlot, if_neg hb, lookupSlot, List.find?, d] using ih

theorem mem_setSlot (am : List Anomaly) (a b : Anomaly) (h : b ∈ setSlot am a) :
    b = a ∨ b ∈ am := by
  induction am with
  | nil => simpa [setSlot] using h
  | cons c rest ih =>
      by_cases hc : c.metric = a.metric
      · simp [setSlot, hc] at h
        rcases h with h | h
        · exact Or.inl h
        · exact Or.inr (List.mem_cons_of_mem _ h)
      · simp [setSlot, hc] at h
        rcases h with h | h
        · exact Or.inr (by simp [h])
        · rcases ih h with h' | h'
          · exact Or.inl h'
          · exact Or.inr (List.mem_cons_of_mem _ h')

theorem map_metric_setSlot (am : List Anomaly) (a : Anomaly) :
    (setSlot am a).map (fun x => x.metric) =
      (if a.metric ∈ am.map (fun x => x.metric) then am.map (fun x => x.metric)
       else am.map (fun x => x.metric) ++ [a.metric]) := by
  induction am with
  | nil => simp [setSlot]
  | cons b rest ih =>
      by_cases hb : b.metric = a.metric
      · simp [setSlot, hb]
      · by_cases hmem : a.metric ∈ rest.map (fun x => x.metric)
        · simp [setSlot, hb, hmem, Ne.symm hb, ih]
        · simp [setSlot, hb, hmem, Ne.symm hb, ih]

theorem nodup_setSlot (am : List Anomaly) (a : Anomaly)
    (h : (am.map (fun x => x.metric)).Nodup) :
    ((setSlot am a).map (fun x => x.metric)).Nodup := by
  rw [map_metric_setSlot]
  by_cases hmem : a.metric ∈ am.map (fun x => x.metric)
  · simpa [hmem] using h
  · simp only [hmem, if_false]
    rw [List.nodup_append]
    refine ⟨h, List.nodup_singleton _, fun b hb hb' => ?_⟩
    rw [List.mem_singleton] at hb'
    exact hmem (hb' ▸ hb)

theorem lookupSlot_eq_some (am : List Anomaly) (n : String) (a : Anomaly)
    (h : lookupSlot am n = some a) : a ∈ am ∧ a.metric = n := by
  refine ⟨List.mem_of_find?_eq_some h, ?_⟩
  have := List.find?_some h
  simpa using this

theorem lookupSlot_of_mem_nodup (am : List Anomaly) (a : Anomaly)
    (hnd : (am.map (fun x => x.metric)).Nodup) (ha : a ∈ am) :
    lookupSlot am a.metric = some a := by
  induction am with
  | nil => simp at ha
  | cons b rest ih =>
      rcases List.mem_cons.mp ha with rfl | ha'
      · simp [lookupSlot, List.find?]
      · have hne : b.metric ≠ a.metric := by
          intro hEq
          have : a.metric ∈ rest.map (fun x => x.metric) := List.mem_map_of_mem _ ha'
          rw [← hEq] at this
          exact (List.nodup_cons.mp (by simpa using hnd)).1 this
        have hrest := ih (List.nodup_cons.mp (by simpa using hnd)).2 ha'
        have d : (decide (b.metric = a.metric)) = false := by simp [hne]
        simpa [lookupSlot, List.find?, d] using hrest

/-! ## Lemmas about the per-metric scan steps -/

theorem stepHighOnly_eq (r : MetricRule) (am : List Anomaly) (e : InputData) :
    stepHighOnly r am e = am ∨ stepHighOnly r am e = setSlot am (mkAnomaly r e) := by
  unfold stepHighOnly
  split
  · split
    · exact Or.inr rfl
    · split
      · exact Or.inr rfl
      · exact Or.inl rfl
  · exact Or.inl rfl

theorem stepCpu_eq (am : List Anomaly) (e : InputData) :
    stepCpu am e = am ∨ stepCpu am e = setSlot am (cpuHighAnom e) ∨
      stepCpu am e = setSlot am (cpuMedAnom e) := by
  unfold stepCpu
  split
  · split
    · exact Or.inr (Or.inl rfl)
    · split
      · exact Or.inr (Or.inl rfl)
      · exact Or.inl rfl
  · split
    · split
      · exact Or.inr (Or.inr rfl)
      · exact Or.inl rfl
    · exact Or.inl rfl

theorem lookupSlot_stepHighOnly_ne (r : MetricRule) (am : List Anomaly) (e : InputData)
    (n : String) (h : n ≠ r.name) :
    lookupSlot (stepHighOnly r am e) n = lookupSlot am n := by
  rcases stepHighOnly_eq r am e with hEq | hEq <;> rw [hEq]
  exact lookupSlot_setSlot_ne am (mkAnomaly r e) n h

theorem lookupSlot_stepCpu_ne (am : List Anomaly) (e : InputData)
    (n : String) (h : n ≠ "cpu_usage") :
    lookupSlot (stepCpu am e) n = lookupSlot am n := by
  rcases stepCpu_eq am e with hEq | hEq | hEq <;> rw [hEq]
  · exact lookupSlot_setSlot_ne am (cpuHighAnom e) n h
  · exact lookupSlot_setSlot_ne am (cpuMedAnom e) n h

theorem mem_stepHighOnly (r : MetricRule) (am : List Anomaly) (e : InputData) (b : Anomaly)
    (h : b ∈ stepHighOnly r am e) : b = mkAnomaly r e ∨ b ∈ am := by
  rcases stepHighOnly_eq r am e with hEq | hEq <;> rw [hEq] at h
  · exact Or.inr h
  · exact mem_setSlot am _ b h

theorem mem_stepCpu (am : List Anomaly) (e : InputData) (b : Anomaly)
    (h : b ∈ stepCpu am e) : b = cpuHighAnom e ∨ b = cpuMedAnom e ∨ b ∈ am := by
  rcases stepCpu_eq am e with hEq | hEq | hEq <;> rw [hEq] at h
  · exact Or.inr (Or.inr h)
  · rcases mem_setSlot am _ b h with h' | h'
    · exact Or.inl h'
    · exact Or.inr (Or.inr h')
  · rcases mem_setSlot am _ b h with h' | h'
    · exact Or.inr (Or.inl h')
    · exact Or.inr (Or.inr h')

theorem nodup_stepHighOnly (r : MetricRule) (am : List Anomaly) (e : InputData)
    (h : (am.map (fun x => x.metric)).Nodup) :
    ((stepHighOnly r am e).map (fun x => x.metric)).Nodup := by
  rcases stepHighOnly_eq r am e with hEq | hEq <;> rw [hEq]
  · exact h
  · exact nodup_setSlot am _ h

theorem nodup_stepCpu (am : List Anomaly) (e : InputData)
    (h : (am.map (fun x => x.metric)).Nodup) :
    ((stepCpu am e).map (fun x => x.metric)).Nodup := by
  rcases stepCpu_eq am e with hEq | hEq | hEq <;> rw [hEq]
  · exact h
  · exact nodup_setSlot am _ h
  · exact nodup_setSlot am _ h

theorem nodup_processEntry (am : List Anomaly) (e : InputData)
    (h : (am.map (fun x => x.metric)).Nodup) :
    ((processEntry am e).map (fun x => x.metric)).Nodup := by
  unfold processEntry
  exact nodup_stepHighOnly _ _ _ (nodup_stepHighOnly _ _ _ (nodup_stepHighOnly _ _ _
    (nodup_stepHighOnly _ _ _ (nodup_stepHighOnly _ _ _ (nodup_stepCpu _ _ h)))))

theorem stepHighOnly_no_breach (r : MetricRule) (am : List Anomaly) (e : InputData)
    (hc : ¬ r.value e > r.threshold) : stepHighOnly r am e = am := by
  simp [stepHighOnly, hc]

theorem stepHighOnly_none (r : MetricRule) (am : List Anomaly) (e : InputData)
    (hc : r.value e > r.threshold) (hl : lookupSlot am r.name = none) :
    stepHighOnly r am e = setSlot am (mkAnomaly r e) := by
  simp [stepHighOnly, hc, hl]

theorem stepHighOnly_some_gt (r : MetricRule) (am : List Anomaly) (e : InputData) (a : Anomaly)
    (hc : r.value e > r.threshold) (hl : lookupSlot am r.name = some a)
    (hv : r.value e > a.value) : stepHighOnly r am e = setSlot am (mkAnomaly r e) := by
  simp [stepHighOnly, hc, hl, hv]

theorem stepHighOnly_some_le (r : MetricRule) (am : List Anomaly) (e : InputData) (a : Anomaly)
    (hc : r.value e > r.threshold) (hl : lookupSlot am r.name = some a)
    (hv : ¬ r.value e > a.value) : stepHighOnly r am e = am := by
  simp [stepHighOnly, hc, hl, hv]

theorem stepCpu_no_breach (am : List Anomaly) (e : InputData)
    (hc : ¬ e.cpu_usage > THRESHOLDS_high "cpu_usage")
    (hm : ¬ e.cpu_usage > THRESHOLDS_medium "cpu_usage") : stepCpu am e = am := by
  simp [stepCpu, hc, hm]

theorem stepCpu_high_none (am : List Anomaly) (e : InputData)
    (hc : e.cpu_usage > THRESHOLDS_high "cpu_usage")
    (hl : lookupSlot am "cpu_usage" = none) :
    stepCpu am e = setSlot am (cpuHighAnom e) := by
  simp [stepCpu, hc, hl]

theorem stepCpu_high_some_gt (am : List Anomaly) (e : InputData) (a : Anomaly)
    (hc : e.cpu_usage > THRESHOLDS_high "cpu_usage")
    (hl : lookupSlot am "cpu_usage" = some a) (hv : e.cpu_usage > a.value) :
    stepCpu am e = setSlot am (cpuHighAnom e) := by
  simp [stepCpu, hc, hl, hv]

theorem stepCpu_high_some_le (am : List Anomaly) (e : InputData) (a : Anomaly)
    (hc : e.cpu_usage > THRESHOLDS_high "cpu_usage")
    (hl : lookupSlot am "cpu_usage" = some a) (hv : ¬ e.cpu_usage > a.value) :
    stepCpu am e = am := by
  simp [stepCpu, hc, hl, hv]

theorem stepCpu_med_none (am : List Anomaly) (e : InputData)
    (hc : ¬ e.cpu_usage > THRESHOLDS_high "cpu_usage")
    (hm : e.cpu_usage > THRESHOLDS_medium "cpu_usage")
    (hl : lookupSlot am "cpu_usage" = none) :
    stepCpu am e = setSlot am (cpuMedAnom e) := by
  simp [stepCpu, hc, hm, hl]

theorem stepCpu_med_some (am : List Anomaly) (e : InputData) (a : Anomaly)
    (hc : ¬ e.cpu_usage > THRESHOLDS_high "cpu_usage")
    (hm : e.cpu_usage > THRESHOLDS_medium "cpu_usage")
    (hl : lookupSlot am "cpu_usage" = some a) : stepCpu am e = am := by
  simp [stepCpu, hc, hm, hl]

/-! ## The generic fold invariant -/

theorem foldl_processEntry_inv (Inv : List InputData → List Anomaly → Prop)
    (hstep : ∀ pre am e, Inv pre am → Inv (pre ++ [e]) (processEntry am e)) :
    ∀ (l pre : List InputData) (am : List Anomaly),
      Inv pre am → Inv (pre ++ l) (l.foldl processEntry am) := by
  intro l
  induction l with
  | nil => intro pre am h; simpa using h
  | cons e rest ih =>
      intro pre am h
      have := ih (pre ++ [e]) (processEntry am e) (hstep pre am e h)
      simpa using this

theorem detect_inv (Inv : List InputData → List Anomaly → Prop)
    (hbase : Inv [] [])
    (hstep : ∀ pre am e, Inv pre am → Inv (pre ++ [e]) (processEntry am e))
    (data : List InputData) : Inv data (detectAnomalies data) := by
  have := foldl_processEntry_inv Inv hstep data [] [] hbase
  simpa [detectAnomalies] using this

theorem detect_nodup (data : List InputData) :
    ((detectAnomalies data).map (fun x => x.metric)).Nodup := by
  exact detect_inv (fun _ am => (am.map (fun x => x.metric)).Nodup)
    (by simp) (fun _ am e h => nodup_processEntry am e h) data

/-! ## Severity invariant: every stored anomaly is medium or high -/

theorem sev_processEntry (am : List Anomaly) (e : InputData)
    (h : ∀ a ∈ am, a.severity = "medium" ∨ a.severity = "high") :
    ∀ a ∈ processEntry am e, a.severity = "medium" ∨ a.severity = "high" := by
  intro b hb
  unfold processEntry at hb
  rcases mem_stepHighOnly _ _ _ _ hb with rfl | hb
  · exact Or.inl rfl
  rcases mem_stepHighOnly _ _ _ _ hb with rfl | hb
  · exact Or.inr rfl
  rcases mem_stepHighOnly _ _ _ _ hb with rfl | hb
  · exact Or.inr rfl
  rcases mem_stepHighOnly _ _ _ _ hb with rfl | hb
  · exact Or.inr rfl
  rcases mem_stepHighOnly _ _ _ _ hb with rfl | hb
  · exact Or.inr rfl
  rcases mem_stepCpu _ _ _ hb with rfl | hb'
  · exact Or.inr rfl
  rcases hb' with rfl | hb''
  · exact Or.inl rfl
  · exact h b hb''

theorem detect_sev (data : List InputData) :
    ∀ a ∈ detectAnomalies data, a.severity = "medium" ∨ a.severity = "high" := by
  exact detect_inv
    (fun _ am => ∀ a ∈ am, a.severity = "medium" ∨ a.severity = "high")
    (by simp) (fun _ am e h => sev_processEntry am e h) data

/-! ## The single-threshold rule invariant -/

theorem ruleInv_nil (r : MetricRule) : RuleInv r [] [] := by
  unfold RuleInv lookupSlot
  simp [SlotSpec]

theorem ruleInv_congr (r : MetricRule) (pre : List InputData) {am₁ am₂ : List Anomaly}
    (h : lookupSlot am₂ r.name = lookupSlot am₁ r.name) (hi : RuleInv r pre am₁) :
    RuleInv r pre am₂ := by
  unfold RuleInv at hi ⊢
  rw [h]
  exact hi

theorem ruleInv_step (r : MetricRule) (pre : List InputData) (am : List Anomaly) (e : InputData)
    (h : RuleInv r pre am) : RuleInv r (pre ++ [e]) (stepHighOnly r am e) := by
  by_cases hc : r.value e > r.threshold
  · cases hl : lookupSlot am r.name with
    | none =>
        rw [RuleInv, stepHighOnly_none r am e hc hl]
        rw [show r.name = (mkAnomaly r e).metric from rfl, lookupSlot_setSlot_self]
        unfold RuleInv at h
        rw [hl] at h
        simp only [SlotSpec] at h ⊢
        refine ⟨⟨e, by simp, hc, rfl⟩, ?_⟩
        intro e' he' hbr
        rcases List.mem_append.mp he' with he' | he'
        · exact absurd hbr (h e' he')
        · rw [List.mem_singleton.mp he']
          exact le_refl _
    | some a =>
        unfold RuleInv at h
        rw [hl] at h
        simp only [SlotSpec] at h
        obtain ⟨⟨w, hw, hwbr, hwa⟩, hbound⟩ := h
        by_cases hv : r.value e > a.value
        · rw [RuleInv, stepHighOnly_some_gt r am e a hc hl hv]
          rw [show r.name = (mkAnomaly r e).metric from rfl, lookupSlot_setSlot_self]
          simp only [SlotSpec]
          refine ⟨⟨e, by simp, hc, rfl⟩, ?_⟩
          intro e' he' hbr
          rcases List.mem_append.mp he' with he' | he'
          · have := hbound e' he' hbr
            have hav : a.value ≤ (mkAnomaly r e).value := le_of_lt (by simpa [mkAnomaly] using hv)
            exact le_trans this hav
          · rw [List.mem_singleton.mp he']
            simp [mkAnomaly]
        · rw [RuleInv, stepHighOnly_some_le r am e a hc hl hv, hl]
          simp only [SlotSpec]
          refine ⟨⟨w, List.mem_append.mpr (Or.inl hw), hwbr, hwa⟩, ?_⟩
          intro e' he' hbr
          rcases List.mem_append.mp he' with he' | he'
          · exact hbound e' he' hbr
          · rw [List.mem_singleton.mp he']
            exact le_of_not_lt hv
  · rw [RuleInv, stepHighOnly_no_breach r am e hc]
    unfold RuleInv at h
    cases hl : lookupSlot am r.name with
    | none =>
        rw [hl] at h
        simp only [SlotSpec] at h ⊢
        intro e' he'
        rcases List.mem_append.mp he' with he' | he'
        · exact h e' he'
        · rw [List.mem_singleton.mp he']
          exact hc
    | some a =>
        rw [hl] at h
        simp only [SlotSpec] at h ⊢
        obtain ⟨⟨w, hw, hwbr, hwa⟩, hbound⟩ := h
        refine ⟨⟨w, List.mem_append.mpr (Or.inl hw), hwbr, hwa⟩, ?_⟩
        intro e' he' hbr
        rcases List.mem_append.mp he' with he' | he'
        · exact hbound e' he' hbr
        · rw [List.mem_singleton.mp he'] at hbr
          exact absurd hbr hc

theorem ruleInv_processEntry_memory (pre : List InputData) (am : List Anomaly) (e : InputData)
    (h : RuleInv memoryRule pre am) : RuleInv memoryRule (pre ++ [e]) (processEntry am e) := by
  have h1 : RuleInv memoryRule pre (stepCpu am e) :=
    ruleInv_congr _ _ (lookupSlot_stepCpu_ne am e _ (by decide)) h
  have h2 := ruleInv_step memoryRule pre (stepCpu am e) e h1
  refine ruleInv_congr _ _ ?_ h2
  unfold processEntry
  rw [lookupSlot_stepHighOnly_ne ioWaitRule _ e _ (by decide),
      lookupSlot_stepHighOnly_ne temperatureRule _ e _ (by decide),
      lookupSlot_stepHighOnly_ne errorRateRule _ e _ (by decide),
      lookupSlot_stepHighOnly_ne latencyRule _ e _ (by decide)]

theorem ruleInv_processEntry_latency (pre : List InputData) (am : List Anomaly) (e : InputData)
    (h : RuleInv latencyRule pre am) : RuleInv latencyRule (pre ++ [e]) (processEntry am e) := by
  have h1 : RuleInv latencyRule pre (stepHighOnly memoryRule (stepCpu am e) e) := by
    refine ruleInv_congr _ _ ?_ h
    rw [lookupSlot_stepHighOnly_ne memoryRule _ e _ (by decide),
        lookupSlot_stepCpu_ne am e _ (by decide)]
  have h2 := ruleInv_step latencyRule pre _ e h1
  refine ruleInv_congr _ _ ?_ h2
  unfold processEntry
  rw [lookupSlot_stepHighOnly_ne ioWaitRule _ e _ (by decide),
      lookupSlot_stepHighOnly_ne temperatureRule _ e _ (by decide),
      lookupSlot_stepHighOnly_ne errorRateRule _ e _ (by decide)]

theorem ruleInv_processEntry_errorRate (pre : List InputData) (am : List Anomaly) (e : InputData)
    (h : RuleInv errorRateRule pre am) : RuleInv errorRateRule (pre ++ [e]) (processEntry am e) := by
  have h1 : RuleInv errorRateRule pre
      (stepHighOnly latencyRule (stepHighOnly memoryRule (stepCpu am e) e) e) := by
    refine ruleInv_congr _ _ ?_ h
    rw [lookupSlot_stepHighOnly_ne latencyRule _ e _ (by decide),
        lookupSlot_stepHighOnly_ne memoryRule _ e _ (by decide),
        lookupSlot_stepCpu_ne am e _ (by decide)]
  have h2 := ruleInv_step errorRateRule pre _ e h1
  refine ruleInv_congr _ _ ?_ h2
  unfold processEntry
  rw [lookupSlot_stepHighOnly_ne ioWaitRule _ e _ (by decide),
      lookupSlot_stepHighOnly_ne temperatureRule _ e _ (by decide)]

theorem ruleInv_processEntry_temperature (pre : List InputData) (am : List Anomaly) (e : InputData)
    (h : RuleInv temperatureRule pre am) :
    RuleInv temperatureRule (pre ++ [e]) (processEntry am e) := by
  have h1 : RuleInv temperatureRule pre
      (stepHighOnly errorRateRule
        (stepHighOnly latencyRule (stepHighOnly memoryRule (stepCpu am e) e) e) e) := by
    refine ruleInv_congr _ _ ?_ h
    rw [lookupSlot_stepHighOnly_ne errorRateRule _ e _ (by decide),
        lookupSlot_stepHighOnly_ne latencyRule _ e _ (by decide),
        lookupSlot_stepHighOnly_ne memoryRule _ e _ (by decide),
        lookupSlot_stepCpu_ne am e _ (by decide)]
  have h2 := ruleInv_step temperatureRule pre _ e h1
  refine ruleInv_congr _ _ ?_ h2
  unfold processEntry
  rw [lookupSlot_stepHighOnly_ne ioWaitRule _ e _ (by decide)]

theorem ruleInv_processEntry_ioWait (pre : List InputData) (am : List Anomaly) (e : InputData)
    (h : RuleInv ioWaitRule pre am) : RuleInv ioWaitRule (pre ++ [e]) (processEntry am e) := by
  have h1 : RuleInv ioWaitRule pre
      (stepHighOnly temperatureRule
        (stepHighOnly errorRateRule
          (stepHighOnly latencyRule (stepHighOnly memoryRule (stepCpu am e) e) e) e) e) := by
    refine ruleInv_congr _ _ ?_ h
    rw [lookupSlot_stepHighOnly_ne temperatureRule _ e _ (by decide),
        lookupSlot_stepHighOnly_ne errorRateRule _ e _ (by decide),
        lookupSlot_stepHighOnly_ne latencyRule _ e _ (by decide),
        lookupSlot_stepHighOnly_ne memoryRule _ e _ (by decide),
        lookupSlot_stepCpu_ne am e _ (by decide)]
  exact ruleInv_step ioWaitRule pre _ e h1

theorem ruleInv_detect_memory (data : List InputData) :
    RuleInv memoryRule data (detectAnomalies data) :=
  detect_inv _ (ruleInv_nil _) ruleInv_processEntry_memory data

theorem ruleInv_detect_latency (data : List InputData) :
    RuleInv latencyRule data (detectAnomalies data) :=
  detect_inv _ (ruleInv_nil _) ruleInv_processEntry_latency data

theorem ruleInv_detect_errorRate (data : List InputData) :
    RuleInv errorRateRule data (detectAnomalies data) :=
  detect_inv _ (ruleInv_nil _) ruleInv_processEntry_errorRate data

theorem ruleInv_detect_temperature (data : List InputData) :
    RuleInv temperatureRule data (detectAnomalies data) :=
  detect_inv _ (ruleInv_nil _) ruleInv_processEntry_temperature data

theorem ruleInv_detect_ioWait (data : List InputData) :
    RuleInv ioWaitRule data (detectAnomalies data) :=
  detect_inv _ (ruleInv_nil _) ruleInv_processEntry_ioWait data

/-! ## The two-tier cpu invariant -/

theorem cpu_med_lt_high : THRESHOLDS_medium "cpu_usage" < THRESHOLDS_high "cpu_usage" := by
  decide

theorem cpuInv_nil : CpuInv [] [] := by
  unfold CpuInv lookupSlot
  simp [CpuSpec]

theorem cpuInv_congr (pre : List InputData) {am₁ am₂ : List Anomaly}
    (h : lookupSlot am₂ "cpu_usage" = lookupSlot am₁ "cpu_usage") (hi : CpuInv pre am₁) :
    CpuInv pre am₂ := by
  unfold CpuInv at hi ⊢
  rw [h]
  exact hi

theorem cpuInv_step (pre : List InputData) (am : List Anomaly) (e : InputData)
    (h : CpuInv pre am) : CpuInv (pre ++ [e]) (stepCpu am e) := by
  by_cases hc : e.cpu_usage > THRESHOLDS_high "cpu_usage"
  · cases hl : lookupSlot am "cpu_usage" with
    | none =>
        rw [CpuInv, stepCpu_high_none am e hc hl]
        rw [show "cpu_usage" = (cpuHighAnom e).metric from rfl, lookupSlot_setSlot_self]
        unfold CpuInv at h
        rw [hl] at h
        simp only [CpuSpec] at h ⊢
        left
        refine ⟨rfl, ⟨e, by simp, hc, rfl⟩, ?_⟩
        intro e' he' hbr
        rcases List.mem_append.mp he' with he' | he'
        · exact absurd (lt_trans cpu_med_lt_high hbr) (h e' he')
        · rw [List.mem_singleton.mp he']
          exact le_refl _
    | some a =>
        unfold CpuInv at h
        rw [hl] at h
        simp only [CpuSpec] at h
        rcases h with ⟨hsev, ⟨w, hw, hwbr, hwa⟩, hbound⟩ | ⟨hsev, hno, e₀, hfind, ha⟩
        · by_cases hv : e.cpu_usage > a.value
          · rw [CpuInv, stepCpu_high_some_gt am e a hc hl hv]
            rw [show "cpu_usage" = (cpuHighAnom e).metric from rfl, lookupSlot_setSlot_self]
            simp only [CpuSpec]
            left
            refine ⟨rfl, ⟨e, by simp, hc, rfl⟩, ?_⟩
            intro e' he' hbr
            rcases List.mem_append.mp he' with he' | he'
            · exact le_trans (hbound e' he' hbr) (le_of_lt (by simpa [cpuHighAnom] using hv))
            · rw [List.mem_singleton.mp he']
              simp [cpuHighAnom]
          · rw [CpuInv, stepCpu_high_some_le am e a hc hl hv, hl]
            simp only [CpuSpec]
            left
            refine ⟨hsev, ⟨w, List.mem_append.mpr (Or.inl hw), hwbr, hwa⟩, ?_⟩
            intro e' he' hbr
            rcases List.mem_append.mp he' with he' | he'
            · exact hbound e' he' hbr
            · rw [List.mem_singleton.mp he']
              exact le_of_not_lt hv
        · have he₀mem : e₀ ∈ pre := List.mem_of_find?_eq_some hfind
          have hav : a.value ≤ THRESHOLDS_high "cpu_usage" := by
            rw [ha]
            exact le_of_not_lt (hno e₀ he₀mem)
          have hv : e.cpu_usage > a.value := lt_of_le_of_lt hav hc
          rw [CpuInv, stepCpu_high_some_gt am e a hc hl hv]
          rw [show "cpu_usage" = (cpuHighAnom e).metric from rfl, lookupSlot_setSlot_self]
          simp only [CpuSpec]
          left
          refine ⟨rfl, ⟨e, by simp, hc, rfl⟩, ?_⟩
          intro e' he' hbr
          rcases List.mem_append.mp he' with he' | he'
          · exact absurd hbr (hno e' he')
          · rw [List.mem_singleton.mp he']
            simp [cpuHighAnom]
  · by_cases hm : e.cpu_usage > THRESHOLDS_medium "cpu_usage"
    · cases hl : lookupSlot am "cpu_usage" with
      | none =>
          rw [CpuInv, stepCpu_med_none am e hc hm hl]
          rw [show "cpu_usage" = (cpuMedAnom e).metric from rfl, lookupSlot_setSlot_self]
          unfold CpuInv at h
          rw [hl] at h
          simp only [CpuSpec] at h ⊢
          right
          refine ⟨rfl, ?_, e, ?_, rfl⟩
          · intro e' he'
            rcases List.mem_append.mp he' with he' | he'
            · intro hbr
              exact (h e' he') (lt_trans cpu_med_lt_high hbr)
            · rw [List.mem_singleton.mp he']
              exact hc
          · rw [List.find?_append]
            have hpre : pre.find?
                (fun x => decide (x.cpu_usage > THRESHOLDS_medium "cpu_usage")) = none := by
              rw [List.find?_eq_none]
              intro x hx
              simpa using h x hx
            rw [hpre]
            have hd : (decide (e.cpu_usage > THRESHOLDS_medium "cpu_usage")) = true := by
              simpa using hm
            simp [List.find?, hd]
      | some a =>
          rw [CpuInv, stepCpu_med_some am e a hc hm hl, hl]
          unfold CpuInv at h
          rw [hl] at h
          simp only [CpuSpec] at h ⊢
          rcases h with ⟨hsev, ⟨w, hw, hwbr, hwa⟩, hbound⟩ | ⟨hsev, hno, e₀, hfind, ha⟩
          · left
            refine ⟨hsev, ⟨w, List.mem_append.mpr (Or.inl hw), hwbr, hwa⟩, ?_⟩
            intro e' he' hbr
            rcases List.mem_append.mp he' with he' | he'
            · exact hbound e' he' hbr
            · rw [List.mem_singleton.mp he'] at hbr
              exact absurd hbr hc
          · right
            refine ⟨hsev, ?_, e₀, ?_, ha⟩
            · intro e' he'
              rcases List.mem_append.mp he' with he' | he'
              · exact hno e' he'
              · rw [List.mem_singleton.mp he']
                exact hc
            · rw [List.find?_append, hfind]
              rfl
    · rw [CpuInv, stepCpu_no_breach am e hc hm]
      unfold CpuInv at h
      cases hl : lookupSlot am "cpu_usage" with
      | none =>
          rw [hl] at h
          simp only [CpuSpec] at h ⊢
          intro e' he'
          rcases List.mem_append.mp he' with he' | he'
          · exact h e' he'
          · rw [List.mem_singleton.mp he']
            exact hm
      | some a =>
          rw [hl] at h
          simp only [CpuSpec] at h ⊢
          rcases h with ⟨hsev, ⟨w, hw, hwbr, hwa⟩, hbound⟩ | ⟨hsev, hno, e₀, hfind, ha⟩
          · left
            refine ⟨hsev, ⟨w, List.mem_append.mpr (Or.inl hw), hwbr, hwa⟩, ?_⟩
            intro e' he' hbr
            rcases List.mem_append.mp he' with he' | he'
            · exact hbound e' he' hbr
            · rw [List.mem_singleton.mp he'] at hbr
              exact absurd hbr hc
          · right
            refine ⟨hsev, ?_, e₀, ?_, ha⟩
            · intro e' he'
              rcases List.mem_append.mp he' with he' | he'
              · exact hno e' he'
              · rw [List.mem_singleton.mp he']
                exact hc
            · rw [List.find?_append, hfind]
              rfl

theorem cpuInv_processEntry (pre : List InputData) (am : List Anomaly) (e : InputData)
    (h : CpuInv pre am) : CpuInv (pre ++ [e]) (processEntry am e) := by
  have h2 := cpuInv_step pre am e h
  refine cpuInv_congr _ ?_ h2
  unfold processEntry
  rw [lookupSlot_stepHighOnly_ne ioWaitRule _ e _ (by decide),
      lookupSlot_stepHighOnly_ne temperatureRule _ e _ (by decide),
      lookupSlot_stepHighOnly_ne errorRateRule _ e _ (by decide),
      lookupSlot_stepHighOnly_ne latencyRule _ e _ (by decide),
      lookupSlot_stepHighOnly_ne memoryRule _ e _ (by decide)]

theorem cpuInv_detect (data : List InputData) : CpuInv data (detectAnomalies data) :=
  detect_inv _ cpuInv_nil cpuInv_processEntry data

/-! ## Insights: shape of the aggregator's output -/

theorem computeInsights_nil : computeInsights [] = none := by
  simp [computeInsights, listMean]

theorem computeInsights_exists (e : InputData) (rest : List InputData) :
    ∃ ins, computeInsights (e :: rest) = some ins := by
  cases hg : (e :: rest).getLast? with
  | none => exact absurd (List.getLast?_eq_none_iff.mp hg) (by simp)
  | some lastE => simp [computeInsights, listMean, listMax, hg]

theorem computeInsights_eq_none_iff (data : List InputData) :
    computeInsights data = none ↔ data = [] := by
  cases data with
  | nil => simp [computeInsights_nil]
  | cons e rest =>
      obtain ⟨ins, hins⟩ := computeInsights_exists e rest
      simp [hins]

theorem computeInsights_avg (data : List InputData) (ins : Insights)
    (h : computeInsights data = some ins) :
    ins.average_latency_ms = pyRound ((data.map (fun d => d.latency_ms)).sum /
        ((data.map (fun d => d.latency_ms)).length : ℚ)) 2 := by
  cases data with
  | nil => rw [computeInsights_nil] at h; exact absurd h (by simp)
  | cons e rest =>
      cases hg : (e :: rest).getLast? with
      | none => exact absurd (List.getLast?_eq_none_iff.mp hg) (by simp)
      | some lastE =>
          simp [computeInsights, listMean, listMax, hg] at h
          rw [← h]
          simp

theorem computeInsights_uptime (data : List InputData) (ins : Insights) (lastE : InputData)
    (h : computeInsights data = some ins) (hg : data.getLast? = some lastE) :
    ins.uptime_seconds = lastE.uptime_seconds := by
  cases data with
  | nil => rw [computeInsights_nil] at h; exact absurd h (by simp)
  | cons e rest =>
      simp [computeInsights, listMean, listMax, hg] at h
      rw [← h]

theorem analysis_node_nil : analysis_node [] = .error .emptyInput := by
  simp [analysis_node, computeInsights_nil]

theorem analysis_node_ok_of_ne_nil (data : List InputData) (h : data ≠ []) :
    ∃ ins, computeInsights data = some ins ∧
      analysis_node data = .ok
        { insights := ins
          anomalies := detectAnomalies data
          service_status_summary := resolveServiceStatus data } := by
  cases data with
  | nil => exact absurd rfl h
  | cons e rest =>
      obtain ⟨ins, hins⟩ := computeInsights_exists e rest
      exact ⟨ins, hins, by simp [analysis_node, hins]⟩

/-! ## Rounding bounds -/

theorem abs_roundHalfEven_sub_le (x : ℚ) : |(roundHalfEven x : ℚ) - x| ≤ 1 / 2 := by
  have h0 : (⌊x⌋ : ℚ) ≤ x := Int.floor_le x
  have h1 : x < (⌊x⌋ : ℚ) + 1 := Int.lt_floor_add_one x
  unfold roundHalfEven
  split_ifs with hf hf2 he
  · rw [abs_le]
    constructor <;> linarith
  · rw [abs_le]
    constructor <;> linarith
  · rw [abs_le]
    push_cast
    constructor <;> linarith
  · rw [abs_le]
    push_cast
    constructor <;> linarith

theorem abs_pyRound2_sub_le (x : ℚ) : |pyRound x 2 - x| ≤ 1 / 200 := by
  have h := abs_roundHalfEven_sub_le (x * 10 ^ 2)
  have h100 : ((10 : ℚ) ^ (2 : ℕ)) = 100 := by norm_num
  unfold pyRound
  rw [h100] at h ⊢
  have heq : (roundHalfEven (x * 100) : ℚ) / 100 - x =
      ((roundHalfEven (x * 100) : ℚ) - x * 100) / 100 := by ring
  rw [heq, abs_div, abs_of_pos (show (0 : ℚ) < 100 by norm_num)]
  have := (div_le_div_iff_of_pos_right (show (0 : ℚ) < 100 by norm_num)).mpr h
  calc |(roundHalfEven (x * 100) : ℚ) - x * 100| / 100 ≤ (1 / 2) / 100 := this
    _ = 1 / 200 := by norm_num

/-! ## Bounds for the mean via the list minimum and maximum -/

theorem le_foldl_max_of_le_init (xs : List ℚ) :
    ∀ init b : ℚ, b ≤ init → b ≤ xs.foldl max init := by
  induction xs with
  | nil => intro init b h; simpa using h
  | cons x l ih =>
      intro init b h
      rw [List.foldl_cons]
      exact ih (max init x) b (le_trans h (le_max_left _ _))

theorem le_foldl_max_of_mem (xs : List ℚ) :
    ∀ init b : ℚ, b ∈ xs → b ≤ xs.foldl max init := by
  induction xs with
  | nil => intro init b h; simp at h
  | cons x l ih =>
      intro init b h
      rw [List.foldl_cons]
      rcases List.mem_cons.mp h with rfl | h'
      · exact le_foldl_max_of_le_init l (max init b) b (le_max_right _ _)
      · exact ih (max init x) b h'

theorem max?_is_ub (xs : List ℚ) (a : ℚ) (h : xs.max? = some a) : ∀ b ∈ xs, b ≤ a := by
  cases xs with
  | nil => simp [List.max?] at h
  | cons x l =>
      have ha : l.foldl max x = a := by
        have : some (l.foldl max x) = some a := h
        exact Option.some.inj this
      intro b hb
      rw [← ha]
      rcases List.mem_cons.mp hb with rfl | hb'
      · exact le_foldl_max_of_le_init l b b (le_refl b)
      · exact le_foldl_max_of_mem l x b hb'

theorem foldl_min_le_init (xs : List ℚ) :
    ∀ init b : ℚ, init ≤ b → xs.foldl min init ≤ b := by
  induction xs with
  | nil => intro init b h; simpa using h
  | cons x l ih =>
      intro init b h
      rw [List.foldl_cons]
      exact ih (min init x) b (le_trans (min_le_left _ _) h)

theorem foldl_min_le_mem (xs : List ℚ) :
    ∀ init b : ℚ, b ∈ xs → xs.foldl min init ≤ b := by
  induction xs with
  | nil => intro init b h; simp at h
  | cons x l ih =>
      intro init b h
      rw [List.foldl_cons]
      rcases List.mem_cons.mp h with rfl | h'
      · exact foldl_min_le_init l (min init b) b (min_le_right _ _)
      · exact ih (min init x) b h'

theorem min?_is_lb (xs : List ℚ) (a : ℚ) (h : xs.min? = some a) : ∀ b ∈ xs, a ≤ b := by
  cases xs with
  | nil => simp [List.min?] at h
  | cons x l =>
      have ha : l.foldl min x = a := by
        have : some (l.foldl min x) = some a := h
        exact Option.some.inj this
      intro b hb
      rw [← ha]
      rcases List.mem_cons.mp hb with rfl | hb'
      · exact foldl_min_le_init l b b (le_refl b)
      · exact foldl_min_le_mem l x b hb'

theorem mean_bounds (xs : List ℚ) (lo hi : ℚ) (hne : xs ≠ [])
    (hlo : ∀ b ∈ xs, lo ≤ b) (hhi : ∀ b ∈ xs, b ≤ hi) :
    lo ≤ xs.sum / (xs.length : ℚ) ∧ xs.sum / (xs.length : ℚ) ≤ hi := by
  have hlen : 0 < (xs.length : ℚ) := by
    have := List.length_pos.mpr hne
    exact_mod_cast this
  have h1 : xs.length • lo ≤ xs.sum := List.card_nsmul_le_sum xs lo hlo
  have h2 : xs.sum ≤ xs.length • hi := List.sum_le_card_nsmul xs hi hhi
  rw [nsmul_eq_mul] at h1 h2
  constructor
  · rw [le_div_iff₀ hlen]
    calc lo * (xs.length : ℚ) = (xs.length : ℚ) * lo := by ring
      _ ≤ xs.sum := h1
  · rw [div_le_iff₀ hlen]
    calc xs.sum ≤ (xs.length : ℚ) * hi := h2
      _ = hi * (xs.length : ℚ) := by ring

/-! ## Service-status resolution -/

theorem mem_trackerAdd (t : StatusTracker) (n : String) (st' st : Status) (s : String) :
    s ∈ trackerSet (trackerAdd t n st') st ↔ (s = n ∧ st = st') ∨ s ∈ trackerSet t st := by
  cases st' <;> cases st <;> simp [trackerAdd, trackerSet]

theorem mem_processStatuses (t : StatusTracker) (ss : ServiceStatus) (s : String) (st : Status) :
    s ∈ trackerSet ((serviceDump ss).foldl (fun t p => trackerAdd t p.1 p.2) t) st ↔
      (s, st) ∈ serviceDump ss ∨ s ∈ trackerSet t st := by
  simp only [serviceDump, List.foldl_cons, List.foldl_nil]
  rw [mem_trackerAdd, mem_trackerAdd, mem_trackerAdd]
  simp only [List.mem_cons, List.mem_singleton, List.not_mem_nil, or_false, Prod.mk.injEq]
  tauto

theorem mem_accumulate (data : List InputData) (s : String) (st : Status) :
    s ∈ trackerSet (accumulateTracker data) st ↔ observedWith data s st := by
  have hempty : (s ∈ trackerSet ⟨∅, ∅, ∅⟩ st) ↔ False := by
    cases st <;> simp [trackerSet]
  have key : ∀ (l : List InputData) (t : StatusTracker),
      s ∈ trackerSet
          (l.foldl (fun t e =>
            (serviceDump e.service_status).foldl (fun t p => trackerAdd t p.1 p.2) t) t) st ↔
        (∃ e ∈ l, (s, st) ∈ serviceDump e.service_status) ∨ s ∈ trackerSet t st := by
    intro l
    induction l with
    | nil => intro t; simp
    | cons e rest ih =>
        intro t
        rw [List.foldl_cons, ih, mem_processStatuses]
        simp only [List.mem_cons]
        constructor
        · rintro (⟨w, hw, hws⟩ | hd | hm)
          · exact Or.inl ⟨w, Or.inr hw, hws⟩
          · exact Or.inl ⟨e, Or.inl rfl, hd⟩
          · exact Or.inr hm
        · rintro (⟨w, rfl | hw, hws⟩ | hm)
          · exact Or.inr (Or.inl hws)
          · exact Or.inl ⟨w, hw, hws⟩
          · exact Or.inr (Or.inr hm)
  unfold accumulateTracker observedWith
  rw [key]
  simp [hempty]

theorem resolve_mem_offline (data : List InputData) (s : String) :
    s ∈ (resolveServiceStatus data).offline ↔ observedWith data s .offline := by
  have hoff : s ∈ (accumulateTracker data).offline ↔ observedWith data s .offline :=
    mem_accumulate data s .offline
  simp only [resolveServiceStatus, resolveTracker, Finset.mem_sort]
  exact hoff

theorem resolve_mem_degraded (data : List InputData) (s : String) :
    s ∈ (resolveServiceStatus data).degraded ↔
      observedWith data s .degraded ∧ ¬ observedWith data s .offline := by
  have hoff : s ∈ (accumulateTracker data).offline ↔ observedWith data s .offline :=
    mem_accumulate data s .offline
  have hdeg : s ∈ (accumulateTracker data).degraded ↔ observedWith data s .degraded :=
    mem_accumulate data s .degraded
  simp only [resolveServiceStatus, resolveTracker, Finset.mem_sort, Finset.mem_sdiff]
  rw [hoff, hdeg]

theorem resolve_mem_online (data : List InputData) (s : String) :
    s ∈ (resolveServiceStatus data).online ↔
      observedWith data s .online ∧ ¬ observedWith data s .offline ∧
        ¬ observedWith data s .degraded := by
  have hoff : s ∈ (accumulateTracker data).offline ↔ observedWith data s .offline :=
    mem_accumulate data s .offline
  have hdeg : s ∈ (accumulateTracker data).degraded ↔ observedWith data s .degraded :=
    mem_accumulate data s .degraded
  have hon : s ∈ (accumulateTracker data).online ↔ observedWith data s .online :=
    mem_accumulate data s .online
  simp only [resolveServiceStatus, resolveTracker, Finset.mem_sort, Finset.mem_sdiff]
  rw [hoff, hdeg, hon]
  tauto

theorem resolve_sorted (data : List InputData) :
    List.Sorted (fun a b => a ≤ b) (resolveServiceStatus data).online ∧
    List.Sorted (fun a b => a ≤ b) (resolveServiceStatus data).degraded ∧
    List.Sorted (fun a b => a ≤ b) (resolveServiceStatus data).offline := by
  refine ⟨?_, ?_, ?_⟩ <;>
    simp only [resolveServiceStatus] <;>
    exact Finset.sort_sorted _ _

theorem observed_names (data : List InputData) (s : String) (st : Status)
    (h : observedWith data s st) : s = "database" ∨ s = "api_gateway" ∨ s = "cache" := by
  obtain ⟨e, _, hpair⟩ := h
  simp only [serviceDump, List.mem_cons, List.mem_singleton, List.not_mem_nil, or_false,
    Prod.mk.injEq] at hpair
  rcases hpair with ⟨h1, _⟩ | ⟨h1, _⟩ | ⟨h1, _⟩
  · exact Or.inl h1
  · exact Or.inr (Or.inl h1)
  · exact Or.inr (Or.inr h1)

theorem observed_of_cons (e : InputData) (rest : List InputData) (s : String)
    (h : s = "database" ∨ s = "api_gateway" ∨ s = "cache") :
    ∃ st, observedWith (e :: rest) s st := by
  rcases h with rfl | rfl | rfl
  · exact ⟨e.service_status.database, e, by simp, by simp [serviceDump]⟩
  · exact ⟨e.service_status.api_gateway, e, by simp, by simp [serviceDump]⟩
  · exact ⟨e.service_status.cache, e, by simp, by simp [serviceDump]⟩

/-! ## Bridges between claim vocabulary and rule vocabulary -/

theorem breachB_cpu (e : InputData) :
    breachB "cpu_usage" e = decide (e.cpu_usage > THRESHOLDS_medium "cpu_usage") := rfl

theorem breachB_memory (e : InputData) :
    breachB "memory_usage" e = decide (e.memory_usage > THRESHOLDS_high "memory_usage") := rfl

theorem breachB_latency (e : InputData) :
    breachB "latency_ms" e = decide (e.latency_ms > THRESHOLDS_high "latency_ms") := rfl

theorem breachB_errorRate (e : InputData) :
    breachB "error_rate" e = decide (e.error_rate > THRESHOLDS_high "error_rate") := rfl

theorem breachB_temperature (e : InputData) :
    breachB "temperature_celsius" e =
      decide (e.temperature_celsius > THRESHOLDS_high "temperature_celsius") := rfl

theorem breachB_ioWait (e : InputData) :
    breachB "io_wait" e = decide (e.io_wait > THRESHOLDS_high "io_wait") := rfl

theorem metricGauge_cpu (e : InputData) : metricGauge "cpu_usage" e = e.cpu_usage := rfl

theorem metricGauge_memory (e : InputData) : metricGauge "memory_usage" e = e.memory_usage := rfl

theorem metricGauge_latency (e : InputData) : metricGauge "latency_ms" e = e.latency_ms := rfl

theorem metricGauge_errorRate (e : InputData) : metricGauge "error_rate" e = e.error_rate := rfl

theorem metricGauge_temperature (e : InputData) :
    metricGauge "temperature_celsius" e = e.temperature_celsius := rfl

theorem metricGauge_ioWait (e : InputData) : metricGauge "io_wait" e = e.io_wait := rfl

theorem names_processEntry (am : List Anomaly) (e : InputData)
    (h : ∀ a ∈ am, a.metric ∈ metricNames) :
    ∀ a ∈ processEntry am e, a.metric ∈ metricNames := by
  intro b hb
  unfold processEntry at hb
  rcases mem_stepHighOnly _ _ _ _ hb with rfl | hb
  · simp [mkAnomaly, ioWaitRule, metricNames]
  rcases mem_stepHighOnly _ _ _ _ hb with rfl | hb
  · simp [mkAnomaly, temperatureRule, metricNames]
  rcases mem_stepHighOnly _ _ _ _ hb with rfl | hb
  · simp [mkAnomaly, errorRateRule, metricNames]
  rcases mem_stepHighOnly _ _ _ _ hb with rfl | hb
  · simp [mkAnomaly, latencyRule, metricNames]
  rcases mem_stepHighOnly _ _ _ _ hb with rfl | hb
  · simp [mkAnomaly, memoryRule, metricNames]
  rcases mem_stepCpu _ _ _ hb with rfl | hb'
  · simp [cpuHighAnom, metricNames]
  rcases hb' with rfl | hb''
  · simp [cpuMedAnom, metricNames]
  · exact h b hb''

theorem detect_names (data : List InputData) :
    ∀ a ∈ detectAnomalies data, a.metric ∈ metricNames :=
  detect_inv (fun _ am => ∀ a ∈ am, a.metric ∈ metricNames)
    (by simp) (fun _ am e h => names_processEntry am e h) data

theorem rule_case_max (data : List InputData) (a : Anomaly) (r : MetricRule)
    (hinv : SlotSpec r data (some a)) :
    (∃ e ∈ data, r.value e > r.threshold ∧ r.value e = a.value) ∧
    (∀ e ∈ data, r.value e > r.threshold → r.value e ≤ a.value) := by
  simp only [SlotSpec] at hinv
  obtain ⟨⟨w, hw, hwbr, hwa⟩, hbound⟩ := hinv
  refine ⟨⟨w, hw, hwbr, ?_⟩, hbound⟩
  rw [hwa]
  rfl

/-! ## Concrete evaluations of the aggregator -/

theorem computeInsights_tiny : computeInsights [snapTinyLat] = some insTiny := by
  have hfr : Int.fract ((2 : ℚ) / 5) = 2 / 5 := by
    rw [Int.fract]
    norm_num
  have hg : ([snapTinyLat]).getLast? = some snapTinyLat := rfl
  simp only [computeInsights, listMean, listMax, hg, insTiny, snapTinyLat, snapBase]
  norm_num [pyRound, roundHalfEven, Rat.mkRat_eq_div, hfr]

theorem computeInsights_up : computeInsights [snapUp1, snapUp2, snapUp3] = some insUp := by
  have hg : ([snapUp1, snapUp2, snapUp3]).getLast? = some snapUp3 := rfl
  simp only [computeInsights, listMean, listMax, hg, insUp, snapUp1, snapUp2, snapUp3, snapBase]
  norm_num [pyRound, roundHalfEven]

theorem computeInsights_c8 : computeInsights [snapC8] = some insC8 := by
  have hg : ([snapC8]).getLast? = some snapC8 := rfl
  simp only [computeInsights, listMean, listMax, hg, insC8, snapC8, snapBase]
  norm_num [pyRound, roundHalfEven, Rat.mkRat_eq_div]

/-! ## Claim theorems -/

/-- C8: a single snapshot with cpu_usage 90, memory_usage 85, latency_ms
300, io_wait 12, error_rate 0.08 and temperature_celsius 80 yields exactly
six anomalies, one per metric, with severities cpu_usage high,
memory_usage high, latency_ms high, io_wait medium, error_rate high,
temperature_celsius high. -/
theorem claim_c8_six_anomalies :
    (detectAnomalies [snapC8]).map (fun a => (a.metric, a.severity)) =
      [("cpu_usage", "high"), ("memory_usage", "high"), ("latency_ms", "high"),
       ("error_rate", "high"), ("temperature_celsius", "high"), ("io_wait", "medium")] := by
  decide

/-- C9: every anomaly in the detector's output has severity medium or
high; severity low is never emitted by the current rules. -/
theorem claim_c9_severity_medium_or_high (data : List InputData) :
    ∀ a ∈ detectAnomalies data, a.severity = "medium" ∨ a.severity = "high" :=
  detect_sev data

theorem claim_c9_witness :
    (mkAnomaly ioWaitRule snapIo12).severity = "medium" ∨
      (mkAnomaly ioWaitRule snapIo12).severity = "high" :=
  claim_c9_severity_medium_or_high [snapIo12] (mkAnomaly ioWaitRule snapIo12) (by decide)

/-- C5: an io_wait anomaly is recorded exactly when some snapshot's
io_wait exceeds the high cutoff 10, and every recorded io_wait anomaly has
severity medium (never high) with threshold 10. -/
theorem claim_c5_io_wait_rule (data : List InputData) :
    ((∃ a ∈ detectAnomalies data, a.metric = "io_wait") ↔ ∃ e ∈ data, e.io_wait > 10) ∧
    ∀ a ∈ detectAnomalies data, a.metric = "io_wait" →
      a.severity = "medium" ∧ a.threshold = 10 := by
  have hname : ioWaitRule.name = "io_wait" := rfl
  have hth : ioWaitRule.threshold = 10 := by decide
  constructor
  · constructor
    · rintro ⟨a, ha, hma⟩
      have hinv := ruleInv_detect_ioWait data
      unfold RuleInv at hinv
      rw [hname] at hinv
      have hl : lookupSlot (detectAnomalies data) "io_wait" = some a := by
        have := lookupSlot_of_mem_nodup _ a (detect_nodup data) ha
        rw [hma] at this
        exact this
      rw [hl] at hinv
      simp only [SlotSpec] at hinv
      obtain ⟨⟨w, hw, hwbr, -⟩, -⟩ := hinv
      refine ⟨w, hw, ?_⟩
      rw [← hth]
      exact hwbr
    · rintro ⟨e, he, hbr⟩
      have hinv := ruleInv_detect_ioWait data
      unfold RuleInv at hinv
      rw [hname] at hinv
      cases hl : lookupSlot (detectAnomalies data) "io_wait" with
      | none =>
          rw [hl] at hinv
          simp only [SlotSpec] at hinv
          refine absurd ?_ (hinv e he)
          rw [hth]
          exact hbr
      | some a =>
          obtain ⟨hmem, hma⟩ := lookupSlot_eq_some _ _ _ hl
          exact ⟨a, hmem, hma⟩
  · intro a ha hma
    have hinv := ruleInv_detect_ioWait data
    unfold RuleInv at hinv
    rw [hname] at hinv
    have hl : lookupSlot (detectAnomalies data) "io_wait" = some a := by
      have := lookupSlot_of_mem_nodup _ a (detect_nodup data) ha
      rw [hma] at this
      exact this
    rw [hl] at hinv
    simp only [SlotSpec] at hinv
    obtain ⟨⟨w, -, -, hwa⟩, -⟩ := hinv
    rw [hwa]
    exact ⟨rfl, hth⟩

theorem claim_c5_witness :
    (∃ a ∈ detectAnomalies [snapIo12], a.metric = "io_wait") ∧
    ((mkAnomaly ioWaitRule snapIo12).severity = "medium" ∧
      (mkAnomaly ioWaitRule snapIo12).threshold = 10) :=
  ⟨(claim_c5_io_wait_rule [snapIo12]).1.mpr ⟨snapIo12, by decide, by decide⟩,
   (claim_c5_io_wait_rule [snapIo12]).2 (mkAnomaly ioWaitRule snapIo12) (by decide) (by decide)⟩

theorem stepCpu_keeps_high (am : List Anomaly) (e : InputData) (a : Anomaly)
    (hl : lookupSlot am "cpu_usage" = some a) (hsev : a.severity = "high") :
    ∃ a', lookupSlot (stepCpu am e) "cpu_usage" = some a' ∧ a'.severity = "high" := by
  by_cases hc : e.cpu_usage > THRESHOLDS_high "cpu_usage"
  · by_cases hv : e.cpu_usage > a.value
    · rw [stepCpu_high_some_gt am e a hc hl hv]
      refine ⟨cpuHighAnom e, ?_, rfl⟩
      rw [show "cpu_usage" = (cpuHighAnom e).metric from rfl, lookupSlot_setSlot_self]
    · rw [stepCpu_high_some_le am e a hc hl hv]
      exact ⟨a, hl, hsev⟩
  · by_cases hm : e.cpu_usage > THRESHOLDS_medium "cpu_usage"
    · rw [stepCpu_med_some am e a hc hm hl]
      exact ⟨a, hl, hsev⟩
    · rw [stepCpu_no_breach am e hc hm]
      exact ⟨a, hl, hsev⟩

theorem processEntry_keeps_high (am : List Anomaly) (e : InputData) (a : Anomaly)
    (hl : lookupSlot am "cpu_usage" = some a) (hsev : a.severity = "high") :
    ∃ a', lookupSlot (processEntry am e) "cpu_usage" = some a' ∧ a'.severity = "high" := by
  obtain ⟨a', hl', hsev'⟩ := stepCpu_keeps_high am e a hl hsev
  refine ⟨a', ?_, hsev'⟩
  unfold processEntry
  rw [lookupSlot_stepHighOnly_ne ioWaitRule _ e _ (by decide),
      lookupSlot_stepHighOnly_ne temperatureRule _ e _ (by decide),
      lookupSlot_stepHighOnly_ne errorRateRule _ e _ (by decide),
      lookupSlot_stepHighOnly_ne latencyRule _ e _ (by decide),
      lookupSlot_stepHighOnly_ne memoryRule _ e _ (by decide)]
  exact hl'

/-- C6: once the cpu_usage slot of the scan holds a high-severity anomaly,
scanning any further snapshots (in particular ones whose cpu_usage only
crosses the medium band) leaves a high-severity anomaly in the slot: the
stored severity never drops from high to medium at a later step. -/
theorem claim_c6_high_never_downgraded (am : List Anomaly) (es : List InputData) (a : Anomaly)
    (hl : lookupSlot am "cpu_usage" = some a) (hsev : a.severity = "high") :
    ∃ a', lookupSlot (es.foldl processEntry am) "cpu_usage" = some a' ∧
      a'.severity = "high" := by
  induction es generalizing am a with
  | nil => exact ⟨a, hl, hsev⟩
  | cons e rest ih =>
      rw [List.foldl_cons]
      obtain ⟨a', hl', hsev'⟩ := processEntry_keeps_high am e a hl hsev
      exact ih _ _ hl' hsev'

theorem claim_c6_witness :
    ∃ a', lookupSlot ([snapCpu80].foldl processEntry [cpuHighAnom snapCpu90]) "cpu_usage" =
        some a' ∧ a'.severity = "high" :=
  claim_c6_high_never_downgraded [cpuHighAnom snapCpu90] [snapCpu80]
    (cpuHighAnom snapCpu90) (by decide) rfl

/-- C2: the orchestrated analysis fails with EmptyInputError exactly on the
empty snapshot sequence; this is its only failure mode, and on non-empty
input it returns the result assembled from the total anomaly detector and
service-status resolver. -/
theorem claim_c2_empty_input_error (data : List InputData) :
    (analysis_node data = .error .emptyInput ↔ data = []) ∧
    (∀ err, analysis_node data = .error err → err = .emptyInput) ∧
    (data ≠ [] → ∃ ins, analysis_node data = .ok
      { insights := ins
        anomalies := detectAnomalies data
        service_status_summary := resolveServiceStatus data }) := by
  refine ⟨⟨?_, ?_⟩, ?_, ?_⟩
  · intro h
    by_contra hne
    obtain ⟨ins, -, hok⟩ := analysis_node_ok_of_ne_nil data hne
    rw [hok] at h
    exact absurd h (by simp)
  · rintro rfl
    exact analysis_node_nil
  · intro err herr
    cases err
    rfl
  · intro hne
    obtain ⟨ins, -, hok⟩ := analysis_node_ok_of_ne_nil data hne
    exact ⟨ins, hok⟩

theorem claim_c2_witness :
    analysis_node ([] : List InputData) = .error .emptyInput ∧
    ∃ ins, analysis_node [snapC8] = .ok
      { insights := ins
        anomalies := detectAnomalies [snapC8]
        service_status_summary := resolveServiceStatus [snapC8] } :=
  ⟨(claim_c2_empty_input_error []).1.mpr rfl,
   (claim_c2_empty_input_error [snapC8]).2.2 (by simp)⟩

/-- C7: for every non-empty snapshot sequence the Insight's uptime_seconds
equals the uptime_seconds of the last snapshot in sequence order,
regardless of earlier values. -/
theorem claim_c7_uptime_is_last (data : List InputData) (ins : Insights) (lastE : InputData)
    (h : computeInsights data = some ins) (hg : data.getLast? = some lastE) :
    ins.uptime_seconds = lastE.uptime_seconds :=
  computeInsights_uptime data ins lastE h hg

theorem claim_c7_witness :
    insUp.uptime_seconds = snapUp3.uptime_seconds ∧ insUp.uptime_seconds = 11800 :=
  ⟨claim_c7_uptime_is_last [snapUp1, snapUp2, snapUp3] insUp snapUp3
      computeInsights_up (by simp), rfl⟩

/-- C3: every service name observed in any snapshot appears in exactly
one of the three output sets, placed by worst-observed-state priority
(offline over degraded over online), and each output list is sorted
lexicographically. -/
theorem claim_c3_service_partition (data : List InputData) (s : String) :
    (s ∈ (resolveServiceStatus data).offline ↔ observedWith data s .offline) ∧
    (s ∈ (resolveServiceStatus data).degraded ↔
      observedWith data s .degraded ∧ ¬ observedWith data s .offline) ∧
    (s ∈ (resolveServiceStatus data).online ↔
      observedWith data s .online ∧ ¬ observedWith data s .offline ∧
        ¬ observedWith data s .degraded) ∧
    ((∃ st, observedWith data s st) →
      (s ∈ (resolveServiceStatus data).offline ∧ s ∉ (resolveServiceStatus data).degraded ∧
          s ∉ (resolveServiceStatus data).online) ∨
      (s ∉ (resolveServiceStatus data).offline ∧ s ∈ (resolveServiceStatus data).degraded ∧
          s ∉ (resolveServiceStatus data).online) ∨
      (s ∉ (resolveServiceStatus data).offline ∧ s ∉ (resolveServiceStatus data).degraded ∧
          s ∈ (resolveServiceStatus data).online)) ∧
    (List.Sorted (fun a b => a ≤ b) (resolveServiceStatus data).online ∧
     List.Sorted (fun a b => a ≤ b) (resolveServiceStatus data).degraded ∧
     List.Sorted (fun a b => a ≤ b) (resolveServiceStatus data).offline) := by
  refine ⟨resolve_mem_offline data s, resolve_mem_degraded data s, resolve_mem_online data s,
    ?_, resolve_sorted data⟩
  rintro ⟨st, hst⟩
  by_cases hoff : observedWith data s .offline
  · left
    refine ⟨(resolve_mem_offline data s).mpr hoff, ?_, ?_⟩
    · rw [resolve_mem_degraded data s]
      tauto
    · rw [resolve_mem_online data s]
      tauto
  · by_cases hdeg : observedWith data s .degraded
    · right
      left
      refine ⟨?_, (resolve_mem_degraded data s).mpr ⟨hdeg, hoff⟩, ?_⟩
      · rw [resolve_mem_offline data s]
        exact hoff
      · rw [resolve_mem_online data s]
        tauto
    · right
      right
      have hon : observedWith data s .online := by
        cases st with
        | online => exact hst
        | degraded => exact absurd hst hdeg
        | offline => exact absurd hst hoff
      refine ⟨?_, ?_, (resolve_mem_online data s).mpr ⟨hon, hoff, hdeg⟩⟩
      · rw [resolve_mem_offline data s]
        exact hoff
      · rw [resolve_mem_degraded data s]
        tauto

theorem claim_c3_witness :
    ("database" ∈ (resolveServiceStatus [snapSvcA, snapSvcB]).offline ∧
      "database" ∉ (resolveServiceStatus [snapSvcA, snapSvcB]).degraded ∧
      "database" ∉ (resolveServiceStatus [snapSvcA, snapSvcB]).online) ∨
    ("database" ∉ (resolveServiceStatus [snapSvcA, snapSvcB]).offline ∧
      "database" ∈ (resolveServiceStatus [snapSvcA, snapSvcB]).degraded ∧
      "database" ∉ (resolveServiceStatus [snapSvcA, snapSvcB]).online) ∨
    ("database" ∉ (resolveServiceStatus [snapSvcA, snapSvcB]).offline ∧
      "database" ∉ (resolveServiceStatus [snapSvcA, snapSvcB]).degraded ∧
      "database" ∈ (resolveServiceStatus [snapSvcA, snapSvcB]).online) :=
  (claim_c3_service_partition [snapSvcA, snapSvcB] "database").2.2.2.1
    ⟨Status.offline, snapSvcB, by decide, by decide⟩

/-- C10: the input model fixes the service-status map to exactly the three
services database, api_gateway and cache, so for every non-empty snapshot
sequence the union of the three output sets of the summary is exactly
these three names, and no other name can appear. -/
theorem claim_c10_union_is_three_services (data : List InputData) (h : data ≠ []) (s : String) :
    (s ∈ (resolveServiceStatus data).online ∨ s ∈ (resolveServiceStatus data).degraded ∨
      s ∈ (resolveServiceStatus data).offline) ↔
      (s = "api_gateway" ∨ s = "cache" ∨ s = "database") := by
  constructor
  · intro hm
    have hobs : ∃ st, observedWith data s st := by
      rcases hm with hm | hm | hm
      · exact ⟨.online, ((resolve_mem_online data s).mp hm).1⟩
      · exact ⟨.degraded, ((resolve_mem_degraded data s).mp hm).1⟩
      · exact ⟨.offline, (resolve_mem_offline data s).mp hm⟩
    obtain ⟨st, hst⟩ := hobs
    rcases observed_names data s st hst with h1 | h1 | h1
    · exact Or.inr (Or.inr h1)
    · exact Or.inl h1
    · exact Or.inr (Or.inl h1)
  · intro hnames
    cases data with
    | nil => exact absurd rfl h
    | cons e rest =>
        have hn : s = "database" ∨ s = "api_gateway" ∨ s = "cache" := by tauto
        obtain ⟨st, hst⟩ := observed_of_cons e rest s hn
        by_cases hoff : observedWith (e :: rest) s .offline
        · exact Or.inr (Or.inr ((resolve_mem_offline _ s).mpr hoff))
        · by_cases hdeg : observedWith (e :: rest) s .degraded
          · exact Or.inr (Or.inl ((resolve_mem_degraded _ s).mpr ⟨hdeg, hoff⟩))
          · refine Or.inl ((resolve_mem_online _ s).mpr ⟨?_, hoff, hdeg⟩)
            cases st with
            | online => exact hst
            | degraded => exact absurd hst hdeg
            | offline => exact absurd hst hoff

theorem claim_c10_witness :
    ("cache" ∈ (resolveServiceStatus [snapSvcA]).online ∨
      "cache" ∈ (resolveServiceStatus [snapSvcA]).degraded ∨
      "cache" ∈ (resolveServiceStatus [snapSvcA]).offline) ↔
      (("cache" : String) = "api_gateway" ∨ ("cache" : String) = "cache" ∨
        ("cache" : String) = "database") :=
  claim_c10_union_is_three_services [snapSvcA] (by simp) "cache"

/-- C4 (counterexample): as stated, the claim fails: for a single snapshot
with latency_ms 0.004 the average is rounded to 0, which lies strictly
below the minimum latency 0.004, so the rounded mean is not always within
[min, max]. -/
theorem claim_c4_counterexample : ¬ MeanWithinMinMax [snapTinyLat] := by
  intro hcl
  obtain ⟨-, hlb, -⟩ :=
    hcl insTiny (mkRat 1 250) (mkRat 1 250) computeInsights_tiny rfl rfl
  exact absurd hlb (by decide)

/-- C4 (amended): average_latency_ms equals the arithmetic mean of the
latencies rounded to 2 decimals, and lies within the interval from the
minimum latency minus 0.005 to the maximum latency plus 0.005 (the
half-unit slack that rounding to 2 decimals can introduce). -/
theorem claim_c4_amended (data : List InputData) (ins : Insights) (lo hi : ℚ)
    (h : computeInsights data = some ins)
    (hlo : (data.map (fun d => d.latency_ms)).min? = some lo)
    (hhi : (data.map (fun d => d.latency_ms)).max? = some hi) :
    ins.average_latency_ms = pyRound ((data.map (fun d => d.latency_ms)).sum /
        ((data.map (fun d => d.latency_ms)).length : ℚ)) 2 ∧
    lo - 1 / 200 ≤ ins.average_latency_ms ∧ ins.average_latency_ms ≤ hi + 1 / 200 := by
  have havg := computeInsights_avg data ins h
  refine ⟨havg, ?_, ?_⟩ <;>
  · have hne : data.map (fun d => d.latency_ms) ≠ [] := by
      intro hnil
      rw [hnil] at hlo
      simp [List.min?] at hlo
    have hmb := mean_bounds (data.map (fun d => d.latency_ms)) lo hi hne
      (min?_is_lb _ lo hlo) (max?_is_ub _ hi hhi)
    have hround := abs_pyRound2_sub_le
      ((data.map (fun d => d.latency_ms)).sum / (((data.map (fun d => d.latency_ms)).length : ℚ)))
    rw [abs_le] at hround
    rw [havg]
    obtain ⟨hr1, hr2⟩ := hround
    obtain ⟨hm1, hm2⟩ := hmb
    linarith

theorem claim_c4_witness :
    insC8.average_latency_ms = pyRound (([snapC8].map (fun d => d.latency_ms)).sum /
        (([snapC8].map (fun d => d.latency_ms)).length : ℚ)) 2 ∧
    300 - 1 / 200 ≤ insC8.average_latency_ms ∧ insC8.average_latency_ms ≤ 300 + 1 / 200 :=
  claim_c4_amended [snapC8] insC8 300 300 computeInsights_c8 rfl rfl

/-- C1 (counterexample): as stated, the claim fails on the sequence of two
snapshots whose cpu_usage crosses only the medium cutoff, at 78 and then
80: the stored cpu_usage anomaly keeps the value 78 of the first breach,
while the maximum breaching value is 80. -/
theorem claim_c1_counterexample : ¬ ValueIsMaxBreach [snapCpu78, snapCpu80] := by
  unfold ValueIsMaxBreach
  decide

/-- C1 (amended): the anomaly list holds at most one entry per metric;
each entry's value is a breaching value, and it is the maximum breaching
value for the five single-threshold metrics and for cpu_usage whenever
some snapshot crosses the high cutoff 85; when cpu_usage has only
medium-band breaches the entry keeps the value of the first breaching
snapshot, which may be below the maximum. -/
theorem claim_c1_amended (data : List InputData) :
    ((detectAnomalies data).map (fun a => a.metric)).Nodup ∧
    ∀ a ∈ detectAnomalies data,
      (∃ e ∈ data, breachB a.metric e = true ∧ metricGauge a.metric e = a.value) ∧
      ((a.metric = "cpu_usage" → ∃ e ∈ data, e.cpu_usage > THRESHOLDS_high "cpu_usage") →
        ∀ e ∈ data, breachB a.metric e = true → metricGauge a.metric e ≤ a.value) ∧
      (a.metric = "cpu_usage" →
        (∀ e ∈ data, ¬ e.cpu_usage > THRESHOLDS_high "cpu_usage") →
        ∀ e₀, data.find? (fun e => decide (e.cpu_usage > THRESHOLDS_medium "cpu_usage")) =
            some e₀ → a.value = e₀.cpu_usage) := by
  refine ⟨detect_nodup data, ?_⟩
  intro a ha
  have hl0 := lookupSlot_of_mem_nodup _ a (detect_nodup data) ha
  have hnames := detect_names data a ha
  simp only [metricNames, List.mem_cons, List.mem_singleton, List.not_mem_nil, or_false]
    at hnames
  rcases hnames with hm | hm | hm | hm | hm | hm
  · have hinv := cpuInv_detect data
    unfold CpuInv at hinv
    rw [hm] at hl0
    rw [hl0] at hinv
    simp only [CpuSpec] at hinv
    rcases hinv with ⟨hsev, ⟨w, hw, hwbr, hwa⟩, hbound⟩ | ⟨hsev, hno, e₀, hfind, ha'⟩
    · refine ⟨⟨w, hw, ?_, ?_⟩, ?_, ?_⟩
      · rw [hm, breachB_cpu]
        exact decide_eq_true (lt_trans cpu_med_lt_high hwbr)
      · rw [hm, metricGauge_cpu, hwa]
        rfl
      · intro _ e he hbr
        rw [hm, breachB_cpu] at hbr
        rw [hm, metricGauge_cpu]
        by_cases h85 : e.cpu_usage > THRESHOLDS_high "cpu_usage"
        · exact hbound e he h85
        · have h1 : e.cpu_usage ≤ THRESHOLDS_high "cpu_usage" := le_of_not_lt h85
          have h2 : THRESHOLDS_high "cpu_usage" < a.value := by
            rw [hwa]
            exact hwbr
          exact le_of_lt (lt_of_le_of_lt h1 h2)
      · intro _ hno85
        exact absurd hwbr (hno85 w hw)
    · refine ⟨?_, ?_, ?_⟩
      · have he₀ : e₀ ∈ data := List.mem_of_find?_eq_some hfind
        have hbr := List.find?_some hfind
        refine ⟨e₀, he₀, ?_, ?_⟩
        · rw [hm, breachB_cpu]
          exact hbr
        · rw [hm, metricGauge_cpu, ha']
          rfl
      · intro hcond
        obtain ⟨eH, heH, hbrH⟩ := hcond hm
        exact absurd hbrH (hno eH heH)
      · intro _ _ e₀' hfind'
        rw [hfind] at hfind'
        have he : e₀ = e₀' := Option.some.inj hfind'
        rw [ha', ← he]
        rfl
  · have hinv := ruleInv_detect_memory data
    unfold RuleInv at hinv
    rw [hm] at hl0
    rw [show memoryRule.name = "memory_usage" from rfl, hl0] at hinv
    obtain ⟨⟨w, hw, hwbr, hweq⟩, hbound⟩ := rule_case_max data a memoryRule hinv
    refine ⟨⟨w, hw, ?_, ?_⟩, ?_, ?_⟩
    · rw [hm, breachB_memory]
      exact decide_eq_true hwbr
    · rw [hm, metricGauge_memory]
      exact hweq
    · intro _ e he hbr
      rw [hm, breachB_memory] at hbr
      rw [hm, metricGauge_memory]
      exact hbound e he (of_decide_eq_true hbr)
    · intro hcpu
      exact absurd (hm.symm.trans hcpu) (by decide)
  · have hinv := ruleInv_detect_latency data
    unfold RuleInv at hinv
    rw [hm] at hl0
    rw [show latencyRule.name = "latency_ms" from rfl, hl0] at hinv
    obtain ⟨⟨w, hw, hwbr, hweq⟩, hbound⟩ := rule_case_max data a latencyRule hinv
    refine ⟨⟨w, hw, ?_, ?_⟩, ?_, ?_⟩
    · rw [hm, breachB_latency]
      exact decide_eq_true hwbr
    · rw [hm, metricGauge_latency]
      exact hweq
    · intro _ e he hbr
      rw [hm, breachB_latency] at hbr
      rw [hm, metricGauge_latency]
      exact hbound e he (of_decide_eq_true hbr)
    · intro hcpu
      exact absurd (hm.symm.trans hcpu) (by decide)
  · have hinv := ruleInv_detect_errorRate data
    unfold RuleInv at hinv
    rw [hm] at hl0
    rw [show errorRateRule.name = "error_rate" from rfl, hl0] at hinv
    obtain ⟨⟨w, hw, hwbr, hweq⟩, hbound⟩ := rule_case_max data a errorRateRule hinv
    refine ⟨⟨w, hw, ?_, ?_⟩, ?_, ?_⟩
    · rw [hm, breachB_errorRate]
      exact decide_eq_true hwbr
    · rw [hm, metricGauge_errorRate]
      exact hweq
    · intro _ e he hbr
      rw [hm, breachB_errorRate] at hbr
      rw [hm, metricGauge_errorRate]
      exact hbound e he (of_decide_eq_true hbr)
    · intro hcpu
      exact absurd (hm.symm.trans hcpu) (by decide)
  · have hinv := ruleInv_detect_temperature data
    unfold RuleInv at hinv
    rw [hm] at hl0
    rw [show temperatureRule.name = "temperature_celsius" from rfl, hl0] at hinv
    obtain ⟨⟨w, hw, hwbr, hweq⟩, hbound⟩ := rule_case_max data a temperatureRule hinv
    refine ⟨⟨w, hw, ?_, ?_⟩, ?_, ?_⟩
    · rw [hm, breachB_temperature]
      exact decide_eq_true hwbr
    · rw [hm, metricGauge_temperature]
      exact hweq
    · intro _ e he hbr
      rw [hm, breachB_temperature] at hbr
      rw [hm, metricGauge_temperature]
      exact hbound e he (of_decide_eq_true hbr)
    · intro hcpu
      exact absurd (hm.symm.trans hcpu) (by decide)
  · have hinv := ruleInv_detect_ioWait data
    unfold RuleInv at hinv
    rw [hm] at hl0
    rw [show ioWaitRule.name = "io_wait" from rfl, hl0] at hinv
    obtain ⟨⟨w, hw, hwbr, hweq⟩, hbound⟩ := rule_case_max data a ioWaitRule hinv
    refine ⟨⟨w, hw, ?_, ?_⟩, ?_, ?_⟩
    · rw [hm, breachB_ioWait]
      exact decide_eq_true hwbr
    · rw [hm, metricGauge_ioWait]
      exact hweq
    · intro _ e he hbr
      rw [hm, breachB_ioWait] at hbr
      rw [hm, metricGauge_ioWait]
      exact hbound e he (of_decide_eq_true hbr)
    · intro hcpu
      exact absurd (hm.symm.trans hcpu) (by decide)

theorem claim_c1_witness :
    ((detectAnomalies [snapC8]).map (fun a => a.metric)).Nodup ∧
    (∃ e ∈ [snapC8], breachB (mkAnomaly ioWaitRule snapC8).metric e = true ∧
      metricGauge (mkAnomaly ioWaitRule snapC8).metric e = (mkAnomaly ioWaitRule snapC8).value) :=
  ⟨(claim_c1_amended [snapC8]).1,
   ((claim_c1_amended [snapC8]).2 (mkAnomaly ioWaitRule snapC8) (by decide)).1⟩

end Monitoring
